import Mathlib

/-!
# Verification of the rust_snake grid-movement core

Shallow embedding of `src/main.rs` of the `rust_snake` repository.

Modelling conventions:
* Screen positions are `f32` in the source, but every position a snake part
  can ever hold is a small integer number of pixels (spawn is `(150.0, 150.0)`
  and every movement adds or subtracts whole pixel amounts, or copies another
  position).  Such values are represented exactly by `f32`, so we model
  positions as `Int`.
* Rust `i32` division (`/`) truncates toward zero; we model it with `Int.tdiv`.
  The `as i32` cast of an integer-valued `f32` is exact for the magnitudes
  that occur here.
* The SFML rendering state (`RectangleShape`, colors, windows) carries no
  simulation information beyond the rectangle's position, which we model as
  the part's position (`get_x`/`get_y`/`set_pos`/`move_` all act on the
  rectangle's position in the source).  A `Tile`'s persistent state is its
  `tile_type`; its `rect` and constant `scale` are rendering-only, so the
  map's tile vector is modelled as a `List TileType`.
* The `rand::thread_rng` draws of `rand_range` are modelled by passing in an
  arbitrary natural number per draw and reducing it modulo the width of the
  requested half-open interval, which reproduces exactly the contract of
  `rng.gen_range(min_v, max_v)`: a value in `[min_v, max_v)`.
* The wall-clock gate `update_snake.elapsed_time().as_milliseconds() >= 95`
  is modelled by a boolean `tick` input to the per-frame step.
-/

/-- `const BLOCK_SIZE: f32 = 25.0` (used as `i32` value 25 in tile math). -/
def BLOCK_SIZE : Int := 25

/-- `enum Direction { Up, Down, Left, Right }`. -/
inductive Direction
  | Up
  | Down
  | Left
  | Right
deriving DecidableEq

/-- The exact 180-degree opposite of a heading (spec vocabulary: "the exact
opposite of the current heading"; not a function of the source). -/
def Direction.opposite : Direction → Direction
  | Direction.Up => Direction.Down
  | Direction.Down => Direction.Up
  | Direction.Left => Direction.Right
  | Direction.Right => Direction.Left

/-- `enum TileType { Blocked, NonBlocked, Active, NonActive }`. -/
inductive TileType
  | Blocked
  | NonBlocked
  | Active
  | NonActive
deriving DecidableEq

/-- `struct Head`: position (of its rectangle), scale, activity flag and
current heading.  The dead `position` field of the source (never read after
construction) and the rendering rectangle are not modelled beyond the
rectangle's position `(x, y)`. -/
structure Head where
  x : Int
  y : Int
  scale : Int
  is_active : Bool
  dir : Direction
deriving DecidableEq

/-- The pressed/released state of the four directional keys W/S/A/D
(the `HashMap<&Key, bool>` of the source restricted to its four keys). -/
structure InputMap where
  w : Bool
  s : Bool
  a : Bool
  d : Bool
deriving DecidableEq

namespace Head

/-- `Head::new`: rectangle placed at `(x, y)`, `is_active` set to `true`. -/
def new (x y scale : Int) (dir : Direction) : Head :=
  { x := x, y := y, scale := scale, is_active := true, dir := dir }

/-- `Head::set_pos`. -/
def set_pos (h : Head) (x y : Int) : Head :=
  { h with x := x, y := y }

/-- `Head::set_direction`. -/
def set_direction (h : Head) (new_dir : Direction) : Head :=
  { h with dir := new_dir }

/-- `Head::reset`: `set_pos(x, y)` then `set_direction(Direction::Right)`. -/
def reset (h : Head) (x y : Int) : Head :=
  (h.set_pos x y).set_direction Direction.Right

/-- `Head::inputs`: early return when inactive; otherwise test W, S, A, D in
that order, each guarded against the exact reversal, and return at the first
hit. -/
def inputs (h : Head) (input_map : InputMap) : Head :=
  if !h.is_active then h
  else if input_map.w && !(h.dir == Direction.Down) then
    { h with dir := Direction.Up }
  else if input_map.s && !(h.dir == Direction.Up) then
    { h with dir := Direction.Down }
  else if input_map.a && !(h.dir == Direction.Right) then
    { h with dir := Direction.Left }
  else if input_map.d && !(h.dir == Direction.Left) then
    { h with dir := Direction.Right }
  else h

/-- `Head::update`: early return when inactive; otherwise translate the
rectangle by the heading's unit vector times `scale`. -/
def update (h : Head) : Head :=
  if !h.is_active then h
  else
    match h.dir with
    | Direction.Up => { h with y := h.y + (-1) * h.scale }
    | Direction.Down => { h with y := h.y + 1 * h.scale }
    | Direction.Left => { h with x := h.x + (-1) * h.scale }
    | Direction.Right => { h with x := h.x + 1 * h.scale }

end Head

/-- `struct Tail`: a body segment; position (of its rectangle), scale and
activity flag, no heading. -/
structure Tail where
  x : Int
  y : Int
  scale : Int
  is_active : Bool
deriving DecidableEq

namespace Tail

/-- `Tail::new`: rectangle placed at `(x, y)`, `is_active` set to `true`. -/
def new (x y scale : Int) : Tail :=
  { x := x, y := y, scale := scale, is_active := true }

/-- `Tail::update`: early return when inactive; otherwise move by
`(px, py) - position`, i.e. set the position to `(px, py)`. -/
def update (t : Tail) (px py : Int) : Tail :=
  if !t.is_active then t
  else { t with x := px, y := py }

/-- A segment's screen position `(get_x(), get_y())`. -/
def pos (t : Tail) : Int × Int := (t.x, t.y)

end Tail

/-- `struct Map`: tile vector (elements reduced to their `tile_type`) plus
grid width and height. -/
structure Map where
  tiles : List TileType
  width : Int
  height : Int
deriving DecidableEq

namespace Map

/-- The linear index `x + self.width * y` used by every tile query and
mutation of the source. -/
def tile_index (m : Map) (x y : Int) : Int :=
  x + m.width * y

/-- `Map::get_tile_coord`: integer-divide both screen coordinates by
`BLOCK_SIZE as i32` (Rust `/` truncates toward zero, hence `Int.tdiv`). -/
def get_tile_coord (_m : Map) (x y : Int) : Int × Int :=
  (x.tdiv BLOCK_SIZE, y.tdiv BLOCK_SIZE)

/-- `Map::is_tile_active`: `false` when the linear index is negative or out
of range, otherwise whether the tile there is `Active`. -/
def is_tile_active (m : Map) (x y : Int) : Bool :=
  let coord := m.tile_index x y
  if coord < 0 then false
  else
    match m.tiles[coord.toNat]? with
    | some t => t == TileType.Active
    | none => false

/-- `Map::is_tile_blocked`: `false` when the linear index is negative or out
of range, otherwise whether the tile there is `Blocked`. -/
def is_tile_blocked (m : Map) (x y : Int) : Bool :=
  let coord := m.tile_index x y
  if coord < 0 then false
  else
    match m.tiles[coord.toNat]? with
    | some t => t == TileType.Blocked
    | none => false

/-- `Map::activate_tile`: no-op when the linear index is negative or out of
range (`List.set` is a no-op out of range, matching `get_mut` returning
`None`), otherwise set that tile to `Active`. -/
def activate_tile (m : Map) (x y : Int) : Map :=
  let coord := m.tile_index x y
  if coord < 0 then m
  else { m with tiles := m.tiles.set coord.toNat TileType.Active }

/-- `Map::deactivate_tile`: same shape as `activate_tile`, setting the tile
to `NonActive`. -/
def deactivate_tile (m : Map) (x y : Int) : Map :=
  let coord := m.tile_index x y
  if coord < 0 then m
  else { m with tiles := m.tiles.set coord.toNat TileType.NonActive }

end Map

/-- `rand_range`: order the two bounds, then draw uniformly from
`[min_v, max_v)`.  The draw `rng.gen_range(min_v, max_v)` is modelled by
reducing the ambient random natural `r` modulo the interval width. -/
def rand_range (min_value max_value : Int) (r : Nat) : Int :=
  let min_v := min min_value max_value
  let max_v := max min_value max_value
  min_v + ((r : Int) % (max_v - min_v))

/-- `new_random_tile`: retry loop drawing a candidate `(rng_x, rng_y)` with
`rng_x ∈ [1, rows-1)`, `rng_y ∈ [1, cols-1)` and retrying while the candidate
shares the head's grid column or grid row, shares some segment's grid column
or grid row, or sits on a `Blocked` tile.  Each iteration consumes one pair
of random naturals from `seeds`; an empty list means the loop has not yet
found a tile (`none`), modelling the unbounded `loop` by fuel. -/
def new_random_tile (rows cols : Int) (current_head : Head)
    (current_tail : List Tail) (map_data : Map) :
    List (Nat × Nat) → Option (Int × Int)
  | [] => none
  | (r1, r2) :: seeds =>
    let rng_x := rand_range 1 (rows - 1) r1
    let rng_y := rand_range 1 (cols - 1) r2
    if rng_x == current_head.x.tdiv BLOCK_SIZE
        || rng_y == current_head.y.tdiv BLOCK_SIZE then
      new_random_tile rows cols current_head current_tail map_data seeds
    else if current_tail.any (fun t =>
        t.x.tdiv BLOCK_SIZE == rng_x || t.y.tdiv BLOCK_SIZE == rng_y) then
      new_random_tile rows cols current_head current_tail map_data seeds
    else if map_data.is_tile_blocked rng_x rng_y then
      new_random_tile rows cols current_head current_tail map_data seeds
    else
      some (rng_x, rng_y)

/-- The mutable state of `run` that the per-frame logic touches: the head,
the tail vector, the map and the pending-growth flag `add_segment`. -/
structure GameState where
  head : Head
  tail : List Tail
  map : Map
  add_segment : Bool
deriving DecidableEq

/-- The self-collision loop of `run`: walk the tail vector in order; at the
first segment whose grid cell (by `get_tile_coord` of its position) equals
`(hx, hy)`, reset the head to `(150, 150)`, clear the whole tail and `break`
(the remaining segments are never examined).  `tail` is the full vector
returned unchanged when no segment matches; the recursion walks the third
argument. -/
def self_collision_loop (hx hy : Int) (head : Head) (tail : List Tail) :
    List Tail → Head × List Tail
  | [] => (head, tail)
  | t :: rest =>
    if t.x.tdiv BLOCK_SIZE == hx && t.y.tdiv BLOCK_SIZE == hy then
      (head.reset 150 150, [])
    else
      self_collision_loop hx hy head tail rest

/-- The per-frame check block of `run` (between `head.inputs` and the timer
gate): compute the head's grid cell `(hx, hy)`; if that tile is blocked,
reset the head and clear the tail; if that tile is active, deactivate it,
place a new random active tile and raise `add_segment`; then run the
self-collision loop against `(hx, hy)`.  Returns `none` only when the
modelled `new_random_tile` fuel runs out. -/
def frame_checks (rows cols : Int) (seeds : List (Nat × Nat))
    (s : GameState) : Option GameState :=
  let hc := s.map.get_tile_coord s.head.x s.head.y
  let hx := hc.1
  let hy := hc.2
  let s1 :=
    if s.map.is_tile_blocked hx hy then
      { s with head := s.head.reset 150 150, tail := [] }
    else s
  let s2opt :=
    if s1.map.is_tile_active hx hy then
      let m2 := s1.map.deactivate_tile hx hy
      match new_random_tile rows cols s1.head s1.tail m2 seeds with
      | none => none
      | some nt =>
        some { s1 with map := m2.activate_tile nt.1 nt.2, add_segment := true }
    else some s1
  match s2opt with
  | none => none
  | some s2 =>
    let ht := self_collision_loop hx hy s2.head s2.tail s2.tail
    some { s2 with head := ht.1, tail := ht.2 }

/-- The follow-the-leader pass of `run`'s movement block: thread the rolling
previous position `(prev_x, prev_y)` through the tail vector in order; each
segment saves its own position, moves to the rolling value, and passes its
saved position on.  Returns the updated vector and the final rolling value
(the position vacated by the last segment, or the head's pre-move position
when the tail is empty). -/
def tail_follow (prev : Int × Int) : List Tail → List Tail × (Int × Int)
  | [] => ([], prev)
  | t :: rest =>
    let prev_t := (t.x, t.y)
    let t2 := t.update prev.1 prev.2
    let r := tail_follow prev_t rest
    (t2 :: r.1, r.2)

/-- The movement block of `run`, executed when the 95 ms timer has elapsed:
save the head's position, advance the head, run the follow-the-leader pass,
and if `add_segment` is raised push a fresh segment at the final rolling
position and lower the flag. -/
def movement_tick (s : GameState) : GameState :=
  let prev := (s.head.x, s.head.y)
  let h2 := s.head.update
  let tf := tail_follow prev s.tail
  if s.add_segment then
    { s with
      head := h2
      tail := tf.1 ++ [Tail.new tf.2.1 tf.2.2 BLOCK_SIZE]
      add_segment := false }
  else
    { s with head := h2, tail := tf.1 }

/-- One un-paused iteration of `run`'s main loop (rendering aside): feed the
key map to `Head::inputs`, run the per-frame checks, and when the timer gate
is open (`tick`) run the movement block. -/
def frame (rows cols : Int) (km : InputMap) (tick : Bool)
    (seeds : List (Nat × Nat)) (s : GameState) : Option GameState :=
  let s0 := { s with head := s.head.inputs km }
  match frame_checks rows cols seeds s0 with
  | none => none
  | some s1 => some (if tick then movement_tick s1 else s1)

/-- The state `run` builds before entering its loop: head spawned by
`Head::new(150.0, 150.0, BLOCK_SIZE, WHITE, Direction::Right)`, empty tail
vector, `add_segment = false`, and the map loaded from the level file
(parameter `m`, since the file is external input). -/
def init_state (m : Map) : GameState :=
  { head := Head.new 150 150 BLOCK_SIZE Direction.Right
    tail := []
    map := m
    add_segment := false }

/-- The states reachable by `run`'s loop from the spawn state, over arbitrary
key input, timer behaviour and random draws. -/
inductive Reaches (m : Map) : GameState → Prop
  | init : Reaches m (init_state m)
  | frame (rows cols : Int) (km : InputMap) (tick : Bool)
      (seeds : List (Nat × Nat)) (s s' : GameState) :
      Reaches m s → frame rows cols km tick seeds s = some s' → Reaches m s'

/-- All activity flags of a state are raised. -/
def GameState.allActive (s : GameState) : Prop :=
  s.head.is_active = true ∧ ∀ t ∈ s.tail, t.is_active = true

/-- The inductive invariant of `run`'s loop: every part is active, the head
keeps its spawn scale, and every position is grid-aligned (a multiple of
`BLOCK_SIZE`). -/
def GameState.inv (s : GameState) : Prop :=
  s.head.is_active = true ∧
  s.head.scale = BLOCK_SIZE ∧
  BLOCK_SIZE ∣ s.head.x ∧ BLOCK_SIZE ∣ s.head.y ∧
  ∀ t ∈ s.tail, t.is_active = true ∧ BLOCK_SIZE ∣ t.x ∧ BLOCK_SIZE ∣ t.y

/-! ## Helper lemmas -/

theorem BLOCK_SIZE_pos : (0 : Int) < BLOCK_SIZE := by decide

/-- A tile that answers `is_tile_blocked` cannot answer `is_tile_active`:
both read the same linear index and the tile type is a single variant. -/
theorem Map.blocked_not_active (m : Map) (x y : Int)
    (hb : m.is_tile_blocked x y = true) : m.is_tile_active x y = false := by
  unfold Map.is_tile_blocked at hb
  unfold Map.is_tile_active
  by_cases hneg : m.tile_index x y < 0
  · simp [hneg] at hb
  · simp only [hneg, if_false] at hb ⊢
    cases hget : m.tiles[(m.tile_index x y).toNat]? with
    | none => simp
    | some t =>
      rw [hget] at hb
      cases t <;> simp_all

/-! ## C8: pixel-to-grid round trip and the linear grid index -/

/-- C8.  Pixel-to-grid round trip: for every integer cell coordinate pair
`(x, y)`, `get_tile_coord (x * BLOCK_SIZE, y * BLOCK_SIZE) = (x, y)` with
`BLOCK_SIZE = 25`, and the linear index used by every tile query and
mutation is `x + width * y`. -/
theorem claim_C8_pixel_grid_round_trip (m : Map) :
    (∀ x y : Int,
      m.get_tile_coord (x * BLOCK_SIZE) (y * BLOCK_SIZE) = (x, y)) ∧
    (∀ x y : Int, m.tile_index x y = x + m.width * y) := by
  constructor
  · intro x y
    unfold Map.get_tile_coord
    rw [Int.mul_tdiv_cancel x (by decide), Int.mul_tdiv_cancel y (by decide)]
  · intro x y
    rfl

/-! ## C2: out-of-range tile coordinate safety -/

/-- C2 counterexample.  The guards only reject a negative *linear* index, not
negative coordinates: on a 2-tile-wide grid, the query `(-1, 1)` has `x < 0`
yet linear index `-1 + 2*1 = 1 ≥ 0`, so `is_tile_blocked` reads tile 1 and
returns `true`, and `activate_tile` overwrites tile 1. -/
theorem claim_C2_counterexample :
    ((-1 : Int) < 0 ∧
      (Map.mk [TileType.NonBlocked, TileType.Blocked] 2 1).is_tile_blocked
        (-1) 1 = true) ∧
    ((Map.mk [TileType.NonBlocked, TileType.NonBlocked] 2 1).activate_tile
        (-1) 1).tiles = [TileType.NonBlocked, TileType.Active] := by
  decide

/-- C2 amended.  The tile operations are safe exactly when the *linear index*
`x + width * y` is negative or at least the number of tiles: then
`is_tile_blocked`/`is_tile_active` return `false` and
`activate_tile`/`deactivate_tile` leave every tile unchanged. -/
theorem claim_C2_amended_linear_index_safety (m : Map) (x y : Int)
    (h : m.tile_index x y < 0 ∨ (m.tiles.length : Int) ≤ m.tile_index x y) :
    m.is_tile_blocked x y = false ∧ m.is_tile_active x y = false ∧
    m.activate_tile x y = m ∧ m.deactivate_tile x y = m := by
  by_cases hneg : m.tile_index x y < 0
  · refine ⟨?_, ?_, ?_, ?_⟩ <;>
      simp [Map.is_tile_blocked, Map.is_tile_active, Map.activate_tile,
        Map.deactivate_tile, hneg]
  · have hlen : m.tiles.length ≤ (m.tile_index x y).toNat := by
      rcases h with h | h
      · omega
      · omega
    have hget : m.tiles[(m.tile_index x y).toNat]? = none :=
      List.getElem?_eq_none hlen
    have hsetA := List.set_eq_of_length_le (l := m.tiles)
      (a := TileType.Active) hlen
    have hsetN := List.set_eq_of_length_le (l := m.tiles)
      (a := TileType.NonActive) hlen
    refine ⟨?_, ?_, ?_, ?_⟩ <;>
      simp [Map.is_tile_blocked, Map.is_tile_active, Map.activate_tile,
        Map.deactivate_tile, hneg, hget, hsetA, hsetN]

/-- C2 witness for the amended claim, at a grid whose linear index is
negative. -/
theorem claim_C2_amended_witness :
    ((Map.mk [TileType.Blocked] 1 1).tile_index (-5) 0 < 0 ∨
      (((Map.mk [TileType.Blocked] 1 1).tiles.length : Int) ≤
        (Map.mk [TileType.Blocked] 1 1).tile_index (-5) 0)) ∧
    ((Map.mk [TileType.Blocked] 1 1).is_tile_blocked (-5) 0 = false ∧
      (Map.mk [TileType.Blocked] 1 1).is_tile_active (-5) 0 = false ∧
      (Map.mk [TileType.Blocked] 1 1).activate_tile (-5) 0 =
        Map.mk [TileType.Blocked] 1 1 ∧
      (Map.mk [TileType.Blocked] 1 1).deactivate_tile (-5) 0 =
        Map.mk [TileType.Blocked] 1 1) :=
  ⟨Or.inl (by decide),
    claim_C2_amended_linear_index_safety _ (-5) 0 (Or.inl (by decide))⟩

/-! ## C4: input precedence and reversal rejection -/

/-- C4.  `Head::inputs` evaluates the directions in the fixed order Up (W),
Down (S), Left (A), Right (D); the first pressed direction that is not the
exact opposite of the current heading becomes the new heading; if no pressed
direction qualifies the heading is unchanged; and the heading after the call
is never the exact opposite of the heading before it.  (The head is active
on every reachable state; see the C10 theorem.) -/
theorem claim_C4_input_precedence (h : Head) (km : InputMap)
    (hact : h.is_active = true) :
    ((km.w = true ∧ h.dir ≠ Direction.Down) →
      (h.inputs km).dir = Direction.Up) ∧
    ((¬(km.w = true ∧ h.dir ≠ Direction.Down) ∧
      km.s = true ∧ h.dir ≠ Direction.Up) →
      (h.inputs km).dir = Direction.Down) ∧
    ((¬(km.w = true ∧ h.dir ≠ Direction.Down) ∧
      ¬(km.s = true ∧ h.dir ≠ Direction.Up) ∧
      km.a = true ∧ h.dir ≠ Direction.Right) →
      (h.inputs km).dir = Direction.Left) ∧
    ((¬(km.w = true ∧ h.dir ≠ Direction.Down) ∧
      ¬(km.s = true ∧ h.dir ≠ Direction.Up) ∧
      ¬(km.a = true ∧ h.dir ≠ Direction.Right) ∧
      km.d = true ∧ h.dir ≠ Direction.Left) →
      (h.inputs km).dir = Direction.Right) ∧
    ((¬(km.w = true ∧ h.dir ≠ Direction.Down) ∧
      ¬(km.s = true ∧ h.dir ≠ Direction.Up) ∧
      ¬(km.a = true ∧ h.dir ≠ Direction.Right) ∧
      ¬(km.d = true ∧ h.dir ≠ Direction.Left)) →
      (h.inputs km).dir = h.dir) ∧
    (h.inputs km).dir ≠ h.dir.opposite := by
  obtain ⟨x, y, sc, act, dir⟩ := h
  obtain ⟨w, s, a, d⟩ := km
  simp only at hact
  subst hact
  cases dir <;> cases w <;> cases s <;> cases a <;> cases d <;>
    simp [Head.inputs, Direction.opposite]

/-- C4 witness: heading Right with W pressed turns Up, and concretely the
result is not the reversal of Right. -/
theorem claim_C4_witness :
    (Head.new 0 0 BLOCK_SIZE Direction.Right).is_active = true ∧
    (((InputMap.mk true false false false).w = true ∧
        (Head.new 0 0 BLOCK_SIZE Direction.Right).dir ≠ Direction.Down) →
      ((Head.new 0 0 BLOCK_SIZE Direction.Right).inputs
          (InputMap.mk true false false false)).dir = Direction.Up) ∧
    ((Head.new 0 0 BLOCK_SIZE Direction.Right).inputs
        (InputMap.mk true false false false)).dir ≠
      (Head.new 0 0 BLOCK_SIZE Direction.Right).dir.opposite :=
  ⟨rfl,
    (claim_C4_input_precedence (Head.new 0 0 BLOCK_SIZE Direction.Right)
      (InputMap.mk true false false false) rfl).1,
    (claim_C4_input_precedence (Head.new 0 0 BLOCK_SIZE Direction.Right)
      (InputMap.mk true false false false) rfl).2.2.2.2.2⟩

/-! ## The follow-the-leader pass -/

/-- The follow-the-leader pass keeps the number of segments. -/
theorem tail_follow_length (prev : Int × Int) (ts : List Tail) :
    (tail_follow prev ts).1.length = ts.length := by
  induction ts generalizing prev with
  | nil => rfl
  | cons t rest ih => simp [tail_follow, ih]

/-- Position of each moved segment: with all segments active, segment `i`
of the pass's output sits at entry `i` of the rolling-position stream
`prev :: (old positions)`. -/
theorem tail_follow_getElem (prev : Int × Int) (ts : List Tail)
    (hact : ∀ t ∈ ts, t.is_active = true) (i : Nat) (hi : i < ts.length) :
    ((tail_follow prev ts).1[i]?).map Tail.pos =
      (prev :: ts.map Tail.pos)[i]? := by
  induction ts generalizing prev i with
  | nil => simp at hi
  | cons t rest ih =>
    have hat : t.is_active = true := hact t (List.mem_cons_self t rest)
    cases i with
    | zero =>
      simp [tail_follow, Tail.update, Tail.pos, hat]
    | succ j =>
      have hj : j < rest.length := by simpa using hi
      have := ih (t.x, t.y) (fun u hu => hact u (List.mem_cons_of_mem t hu)) j hj
      simpa [tail_follow, Tail.pos] using this

/-- The final rolling value of the pass is the pre-move position of the last
segment (or the initial rolling value when there is no segment). -/
theorem tail_follow_snd (prev : Int × Int) (ts : List Tail) :
    (prev :: ts.map Tail.pos).getLast? = some (tail_follow prev ts).2 := by
  induction ts generalizing prev with
  | nil => rfl
  | cons t rest ih =>
    have := ih (t.x, t.y)
    simpa [tail_follow, Tail.pos, List.getLast?_cons_cons] using this

/-! ## C1: segment chain integrity -/

/-- C1.  After the movement pass of a tick, every pre-existing segment's new
position equals the position held immediately before the tick by the unit
ahead of it: entry `i` of the moved tail is entry `i` of the stream whose
entry `0` is the head's pre-move position and whose entry `i + 1` is
segment `i`'s pre-move position.  (Segments are active on every reachable
state; see the C10 theorem.) -/
theorem claim_C1_segment_chain (s : GameState)
    (hact : ∀ t ∈ s.tail, t.is_active = true)
    (i : Nat) (hi : i < s.tail.length) :
    ((movement_tick s).tail[i]?).map Tail.pos =
      ((s.head.x, s.head.y) :: s.tail.map Tail.pos)[i]? := by
  have hlen : (tail_follow (s.head.x, s.head.y) s.tail).1.length =
      s.tail.length := tail_follow_length _ _
  have hmain := tail_follow_getElem (s.head.x, s.head.y) s.tail hact i hi
  unfold movement_tick
  by_cases hseg : s.add_segment
  · simpa [hseg, List.getElem?_append, hlen, hi] using hmain
  · simpa [hseg] using hmain

/-- C1 witness: one active segment behind the head; after the tick it sits
exactly on the head's pre-move position. -/
theorem claim_C1_witness :
    (∀ t ∈ (GameState.mk (Head.new 150 150 BLOCK_SIZE Direction.Right)
        [Tail.new 125 150 BLOCK_SIZE] (Map.mk [] 32 24) false).tail,
      t.is_active = true) ∧
    (0 < (GameState.mk (Head.new 150 150 BLOCK_SIZE Direction.Right)
        [Tail.new 125 150 BLOCK_SIZE] (Map.mk [] 32 24) false).tail.length) ∧
    ((movement_tick (GameState.mk (Head.new 150 150 BLOCK_SIZE Direction.Right)
        [Tail.new 125 150 BLOCK_SIZE] (Map.mk [] 32 24) false)).tail[0]?).map
        Tail.pos = some (150, 150) :=
  ⟨by decide, by decide,
    by
      simpa using claim_C1_segment_chain
        (GameState.mk (Head.new 150 150 BLOCK_SIZE Direction.Right)
          [Tail.new 125 150 BLOCK_SIZE] (Map.mk [] 32 24) false)
        (by decide) 0 (by decide)⟩

/-! ## C5: growth once per tick, at the vacated tail position -/

/-- C5.  Per movement tick the tail grows by exactly one segment when the
pending-growth flag is raised and by none otherwise (however many frames
raised the flag before the tick, it is a single boolean); when the flag is
raised, the appended segment sits exactly at the position the last segment
(or the head, for an empty tail) vacated during this tick, and the flag is
lowered afterwards. -/
theorem claim_C5_growth_once (s : GameState) :
    (movement_tick s).tail.length =
      s.tail.length + (if s.add_segment then 1 else 0) ∧
    (movement_tick s).add_segment = false ∧
    (s.add_segment = true →
      ((movement_tick s).tail.getLast?).map Tail.pos =
        ((s.head.x, s.head.y) :: s.tail.map Tail.pos).getLast?) := by
  have hlen : (tail_follow (s.head.x, s.head.y) s.tail).1.length =
      s.tail.length := tail_follow_length _ _
  have hsnd := tail_follow_snd (s.head.x, s.head.y) s.tail
  unfold movement_tick
  by_cases hseg : s.add_segment
  · refine ⟨by simp [hseg, hlen], by simp [hseg], fun _ => ?_⟩
    rw [hsnd]
    simp [hseg, List.getLast?_concat, Tail.new, Tail.pos]
  · simp [hseg, hlen]

/-- C5 witness: with the flag raised and no segments, one segment appears
exactly at the head's vacated spawn cell and the flag is lowered. -/
theorem claim_C5_witness :
    (movement_tick (GameState.mk (Head.new 150 150 BLOCK_SIZE Direction.Right)
        [] (Map.mk [] 32 24) true)).tail.length = 0 + 1 ∧
    (movement_tick (GameState.mk (Head.new 150 150 BLOCK_SIZE Direction.Right)
        [] (Map.mk [] 32 24) true)).add_segment = false ∧
    ((movement_tick (GameState.mk (Head.new 150 150 BLOCK_SIZE Direction.Right)
        [] (Map.mk [] 32 24) true)).tail.getLast?).map Tail.pos =
      some (150, 150) := by
  have h := claim_C5_growth_once
    (GameState.mk (Head.new 150 150 BLOCK_SIZE Direction.Right)
      [] (Map.mk [] 32 24) true)
  refine ⟨by simpa using h.1, h.2.1, ?_⟩
  simpa using h.2.2 rfl

/-! ## C6: goal-tile placement postcondition -/

/-- The modelled `rand_range` draw lands in `[a, b)` whenever `a < b`,
matching the contract of `rng.gen_range`. -/
theorem rand_range_mem (a b : Int) (r : Nat) (hab : a < b) :
    a ≤ rand_range a b r ∧ rand_range a b r < b := by
  unfold rand_range
  simp only [min_eq_left (le_of_lt hab), max_eq_right (le_of_lt hab)]
  have h1 : 0 ≤ (r : Int) % (b - a) := Int.emod_nonneg _ (by omega)
  have h2 : (r : Int) % (b - a) < b - a := Int.emod_lt_of_pos _ (by omega)
  omega

/-- C6.  Whenever `new_random_tile` returns `(x, y)`: both coordinates lie
in `[1, rows-1)` resp. `[1, cols-1)`; `x` differs from the head's grid
column and `y` from the head's grid row; for every tail segment `x` differs
from its grid column and `y` from its grid row (column-or-row comparisons,
not exact-cell equality); and the tile at `(x, y)` is not blocked. -/
theorem claim_C6_goal_tile_postcondition (rows cols : Int) (head : Head)
    (tail : List Tail) (m : Map) (seeds : List (Nat × Nat)) (x y : Int)
    (hrows : 1 < rows - 1) (hcols : 1 < cols - 1)
    (hres : new_random_tile rows cols head tail m seeds = some (x, y)) :
    (1 ≤ x ∧ x < rows - 1) ∧ (1 ≤ y ∧ y < cols - 1) ∧
    x ≠ head.x.tdiv BLOCK_SIZE ∧ y ≠ head.y.tdiv BLOCK_SIZE ∧
    (∀ t ∈ tail, x ≠ t.x.tdiv BLOCK_SIZE ∧ y ≠ t.y.tdiv BLOCK_SIZE) ∧
    m.is_tile_blocked x y = false := by
  induction seeds with
  | nil => simp [new_random_tile] at hres
  | cons p rest ih =>
    obtain ⟨r1, r2⟩ := p
    rw [new_random_tile] at hres
    by_cases hc1 : (rand_range 1 (rows - 1) r1 == head.x.tdiv BLOCK_SIZE
        || rand_range 1 (cols - 1) r2 == head.y.tdiv BLOCK_SIZE) = true
    · rw [if_pos hc1] at hres
      exact ih hres
    · rw [if_neg hc1] at hres
      by_cases hc2 : (tail.any (fun t =>
          t.x.tdiv BLOCK_SIZE == rand_range 1 (rows - 1) r1
          || t.y.tdiv BLOCK_SIZE == rand_range 1 (cols - 1) r2)) = true
      · rw [if_pos hc2] at hres
        exact ih hres
      · rw [if_neg hc2] at hres
        by_cases hc3 : m.is_tile_blocked (rand_range 1 (rows - 1) r1)
            (rand_range 1 (cols - 1) r2) = true
        · rw [if_pos hc3] at hres
          exact ih hres
        · rw [if_neg hc3] at hres
          have hx : rand_range 1 (rows - 1) r1 = x := by
            simpa using congrArg (fun o => (o.getD (0, 0)).1) hres
          have hy : rand_range 1 (cols - 1) r2 = y := by
            simpa using congrArg (fun o => (o.getD (0, 0)).2) hres
          subst hx
          subst hy
          simp only [Bool.or_eq_true, beq_iff_eq, not_or] at hc1
          simp only [List.any_eq_true, Bool.or_eq_true, beq_iff_eq,
            not_exists, not_and, not_or] at hc2
          refine ⟨rand_range_mem 1 (rows - 1) r1 (by omega),
            rand_range_mem 1 (cols - 1) r2 (by omega), hc1.1, hc1.2,
            ?_, by simpa using hc3⟩
          intro t ht
          have := hc2 t ht
          exact ⟨fun he => this.1 he.symm, fun he => this.2 he.symm⟩

/-- C6 witness: on a 32x24 grid with an empty tile vector, head at spawn and
no tail, the first draw `(0, 0)` yields the tile `(1, 1)` and the
postcondition holds there. -/
theorem claim_C6_witness :
    (1 < (32 : Int) - 1) ∧ (1 < (24 : Int) - 1) ∧
    new_random_tile 32 24 (Head.new 150 150 BLOCK_SIZE Direction.Right) []
      (Map.mk [] 32 24) [(0, 0)] = some (1, 1) ∧
    ((1 ≤ (1 : Int) ∧ (1 : Int) < 32 - 1) ∧
      (1 ≤ (1 : Int) ∧ (1 : Int) < 24 - 1) ∧
      (1 : Int) ≠ (Head.new 150 150 BLOCK_SIZE Direction.Right).x.tdiv
        BLOCK_SIZE ∧
      (1 : Int) ≠ (Head.new 150 150 BLOCK_SIZE Direction.Right).y.tdiv
        BLOCK_SIZE ∧
      (∀ t ∈ ([] : List Tail),
        (1 : Int) ≠ t.x.tdiv BLOCK_SIZE ∧ (1 : Int) ≠ t.y.tdiv BLOCK_SIZE) ∧
      (Map.mk [] 32 24).is_tile_blocked 1 1 = false) :=
  ⟨by decide, by decide, by decide,
    claim_C6_goal_tile_postcondition 32 24
      (Head.new 150 150 BLOCK_SIZE Direction.Right) [] (Map.mk [] 32 24)
      [(0, 0)] 1 1 (by decide) (by decide) (by decide)⟩

/-! ## The self-collision loop and the per-frame checks -/

/-- If some segment of the walked list sits on the grid cell `(hx, hy)`, the
loop resets the head to `(150, 150)` and clears the tail. -/
theorem self_collision_loop_hit (hx hy : Int) (head : Head)
    (tail : List Tail) (l : List Tail)
    (h : ∃ t ∈ l, t.x.tdiv BLOCK_SIZE = hx ∧ t.y.tdiv BLOCK_SIZE = hy) :
    self_collision_loop hx hy head tail l = (head.reset 150 150, []) := by
  induction l with
  | nil => simp at h
  | cons t rest ih =>
    rw [self_collision_loop]
    by_cases hc : (t.x.tdiv BLOCK_SIZE == hx && t.y.tdiv BLOCK_SIZE == hy)
        = true
    · rw [if_pos hc]
    · rw [if_neg hc]
      apply ih
      simp only [Bool.and_eq_true, beq_iff_eq] at hc
      rcases h with ⟨u, hu, hux, huy⟩
      rcases List.mem_cons.mp hu with rfl | hu
      · exact absurd ⟨hux, huy⟩ hc
      · exact ⟨u, hu, hux, huy⟩

/-- The loop either leaves head and tail untouched or produces the reset
pair; nothing else can come out of it. -/
theorem self_collision_loop_shape (hx hy : Int) (head : Head)
    (tail : List Tail) (l : List Tail) :
    self_collision_loop hx hy head tail l = (head, tail) ∨
    self_collision_loop hx hy head tail l = (head.reset 150 150, []) := by
  induction l with
  | nil => left; rfl
  | cons t rest ih =>
    rw [self_collision_loop]
    by_cases hc : (t.x.tdiv BLOCK_SIZE == hx && t.y.tdiv BLOCK_SIZE == hy)
        = true
    · rw [if_pos hc]; right; rfl
    · rw [if_neg hc]; exact ih

/-- When the head stands on a blocked tile, the frame's check block reduces
to the reset: head back to `(150, 150)` (heading Right), tail cleared, map
and pending-growth flag untouched. -/
theorem frame_checks_blocked (rows cols : Int) (seeds : List (Nat × Nat))
    (s : GameState)
    (hb : s.map.is_tile_blocked (s.map.get_tile_coord s.head.x s.head.y).1
        (s.map.get_tile_coord s.head.x s.head.y).2 = true) :
    frame_checks rows cols seeds s =
      some { s with head := s.head.reset 150 150, tail := [] } := by
  have hact := Map.blocked_not_active s.map _ _ hb
  unfold frame_checks
  simp only [hb, if_true, hact, Bool.false_eq_true, if_false]
  rfl

/-! ## C3: blocked-tile precedence with abort -/

/-- C3.  On a frame whose head cell is a blocked tile, the check block
resets the snake to its spawn state (head `(150, 150)`, heading Right, all
segments cleared) and the rest of the frame's checks leave no observable
trace: the map and the pending-growth flag come out exactly as they went in
(the blocked tile cannot also be active, and the self-collision scan runs
over the already-cleared tail). -/
theorem claim_C3_blocked_tile_reset (rows cols : Int)
    (seeds : List (Nat × Nat)) (s : GameState)
    (hb : s.map.is_tile_blocked (s.map.get_tile_coord s.head.x s.head.y).1
        (s.map.get_tile_coord s.head.x s.head.y).2 = true) :
    frame_checks rows cols seeds s =
      some { s with head := s.head.reset 150 150, tail := [] } :=
  frame_checks_blocked rows cols seeds s hb

/-- C3 witness: a one-tile blocked map with the head on that tile. -/
theorem claim_C3_witness :
    ((GameState.mk (Head.new 0 0 BLOCK_SIZE Direction.Right) []
        (Map.mk [TileType.Blocked] 1 1) false).map.is_tile_blocked
      ((GameState.mk (Head.new 0 0 BLOCK_SIZE Direction.Right) []
          (Map.mk [TileType.Blocked] 1 1) false).map.get_tile_coord 0 0).1
      ((GameState.mk (Head.new 0 0 BLOCK_SIZE Direction.Right) []
          (Map.mk [TileType.Blocked] 1 1) false).map.get_tile_coord 0 0).2
      = true) ∧
    frame_checks 32 24 []
      (GameState.mk (Head.new 0 0 BLOCK_SIZE Direction.Right) []
        (Map.mk [TileType.Blocked] 1 1) false) =
      some (GameState.mk (Head.mk 150 150 BLOCK_SIZE true Direction.Right) []
        (Map.mk [TileType.Blocked] 1 1) false) :=
  ⟨by decide,
    by
      rw [claim_C3_blocked_tile_reset 32 24 []
        (GameState.mk (Head.new 0 0 BLOCK_SIZE Direction.Right) []
          (Map.mk [TileType.Blocked] 1 1) false) (by decide)]
      rfl⟩

/-! ## C7: self-collision reset -/

/-- C7.  On any frame on which some tail segment's grid cell equals the grid
cell computed from the head at the start of the checks, the check block ends
with the snake reset: head at `(150, 150)` heading Right and tail cleared.
Moreover the scan stops at the first matching segment: its result never
depends on the segments behind the first hit. -/
theorem claim_C7_self_collision_reset (rows cols : Int)
    (seeds : List (Nat × Nat)) (s s' : GameState)
    (hrun : frame_checks rows cols seeds s = some s')
    (hcol : ∃ t ∈ s.tail, s.map.get_tile_coord t.x t.y =
        s.map.get_tile_coord s.head.x s.head.y) :
    (s'.head = s.head.reset 150 150 ∧ s'.tail = []) ∧
    (∀ (hx hy : Int) (head : Head) (tl : List Tail) (t : Tail)
        (rest : List Tail),
      t.x.tdiv BLOCK_SIZE = hx → t.y.tdiv BLOCK_SIZE = hy →
      self_collision_loop hx hy head tl (t :: rest) =
        (head.reset 150 150, [])) := by
  constructor
  · have hcol' : ∃ t ∈ s.tail,
        t.x.tdiv BLOCK_SIZE = (s.map.get_tile_coord s.head.x s.head.y).1 ∧
        t.y.tdiv BLOCK_SIZE = (s.map.get_tile_coord s.head.x s.head.y).2 := by
      rcases hcol with ⟨t, ht, he⟩
      exact ⟨t, ht, congrArg Prod.fst he, congrArg Prod.snd he⟩
    have hloop := self_collision_loop_hit
      (s.map.get_tile_coord s.head.x s.head.y).1
      (s.map.get_tile_coord s.head.x s.head.y).2 s.head s.tail s.tail hcol'
    by_cases hb : s.map.is_tile_blocked
        (s.map.get_tile_coord s.head.x s.head.y).1
        (s.map.get_tile_coord s.head.x s.head.y).2 = true
    · rw [frame_checks_blocked rows cols seeds s hb] at hrun
      obtain rfl := Option.some.inj hrun
      exact ⟨rfl, rfl⟩
    · unfold frame_checks at hrun
      simp only [hb, if_false, ite_false, Bool.false_eq_true] at hrun
      by_cases ha : s.map.is_tile_active
          (s.map.get_tile_coord s.head.x s.head.y).1
          (s.map.get_tile_coord s.head.x s.head.y).2 = true
      · simp only [ha, if_true, ite_true] at hrun
        cases hnt : new_random_tile rows cols s.head s.tail
            (s.map.deactivate_tile
              (s.map.get_tile_coord s.head.x s.head.y).1
              (s.map.get_tile_coord s.head.x s.head.y).2) seeds with
        | none =>
          rw [hnt] at hrun
          simp at hrun
        | some nt =>
          rw [hnt] at hrun
          simp only [hloop] at hrun
          obtain rfl := Option.some.inj hrun
          exact ⟨rfl, rfl⟩
      · simp only [ha, if_false, ite_false, Bool.false_eq_true, hloop]
          at hrun
        obtain rfl := Option.some.inj hrun
        exact ⟨rfl, rfl⟩
  · intro hx hy head tl t rest h1 h2
    rw [self_collision_loop]
    simp [h1, h2]

/-- C7 witness: a single segment sharing the head's cell; the frame checks
end reset. -/
theorem claim_C7_witness :
    frame_checks 32 24 []
      (GameState.mk (Head.new 0 0 BLOCK_SIZE Direction.Right)
        [Tail.new 0 0 BLOCK_SIZE] (Map.mk [TileType.NonBlocked] 1 1) false) =
      some (GameState.mk (Head.mk 150 150 BLOCK_SIZE true Direction.Right) []
        (Map.mk [TileType.NonBlocked] 1 1) false) ∧
    ((GameState.mk (Head.mk 150 150 BLOCK_SIZE true Direction.Right) []
        (Map.mk [TileType.NonBlocked] 1 1) false).head =
      (GameState.mk (Head.new 0 0 BLOCK_SIZE Direction.Right)
        [Tail.new 0 0 BLOCK_SIZE] (Map.mk [TileType.NonBlocked] 1 1)
        false).head.reset 150 150 ∧
      (GameState.mk (Head.mk 150 150 BLOCK_SIZE true Direction.Right) []
        (Map.mk [TileType.NonBlocked] 1 1) false).tail = []) :=
  ⟨by decide,
    (claim_C7_self_collision_reset 32 24 []
      (GameState.mk (Head.new 0 0 BLOCK_SIZE Direction.Right)
        [Tail.new 0 0 BLOCK_SIZE] (Map.mk [TileType.NonBlocked] 1 1) false)
      (GameState.mk (Head.mk 150 150 BLOCK_SIZE true Direction.Right) []
        (Map.mk [TileType.NonBlocked] 1 1) false)
      (by decide)
      ⟨Tail.new 0 0 BLOCK_SIZE, by decide, by decide⟩).1⟩

/-! ## The loop invariant over reachable states -/

/-- `Head::inputs` only ever touches the heading. -/
theorem head_inputs_fields (h : Head) (km : InputMap) :
    (h.inputs km).x = h.x ∧ (h.inputs km).y = h.y ∧
    (h.inputs km).scale = h.scale ∧ (h.inputs km).is_active = h.is_active := by
  unfold Head.inputs
  repeat' split
  all_goals exact ⟨rfl, rfl, rfl, rfl⟩

/-- `Head::update` keeps the activity flag and scale, and keeps both
coordinates grid-aligned when the scale is the cell size. -/
theorem head_update_inv (h : Head) (hsc : h.scale = BLOCK_SIZE)
    (hx : BLOCK_SIZE ∣ h.x) (hy : BLOCK_SIZE ∣ h.y) :
    h.update.is_active = h.is_active ∧ h.update.scale = h.scale ∧
    BLOCK_SIZE ∣ h.update.x ∧ BLOCK_SIZE ∣ h.update.y := by
  unfold Head.update
  split
  · exact ⟨rfl, rfl, hx, hy⟩
  · simp only [BLOCK_SIZE] at hsc hx hy ⊢
    cases hd : h.dir <;> simp [hd, hsc] <;> omega

/-- The follow-the-leader pass keeps every segment active and grid-aligned,
and its final rolling value grid-aligned, provided the initial rolling value
is grid-aligned. -/
theorem tail_follow_inv (prev : Int × Int) (ts : List Tail)
    (hp : BLOCK_SIZE ∣ prev.1 ∧ BLOCK_SIZE ∣ prev.2)
    (hts : ∀ t ∈ ts,
      t.is_active = true ∧ BLOCK_SIZE ∣ t.x ∧ BLOCK_SIZE ∣ t.y) :
    (∀ u ∈ (tail_follow prev ts).1,
      u.is_active = true ∧ BLOCK_SIZE ∣ u.x ∧ BLOCK_SIZE ∣ u.y) ∧
    (BLOCK_SIZE ∣ (tail_follow prev ts).2.1 ∧
      BLOCK_SIZE ∣ (tail_follow prev ts).2.2) := by
  induction ts generalizing prev with
  | nil => exact ⟨by simp [tail_follow], hp⟩
  | cons t rest ih =>
    have hat := hts t (List.mem_cons_self t rest)
    have ihr := ih (t.x, t.y) ⟨hat.2.1, hat.2.2⟩
      (fun u hu => hts u (List.mem_cons_of_mem t hu))
    constructor
    · intro u hu
      rw [tail_follow] at hu
      rcases List.mem_cons.mp hu with rfl | hu
      · refine ⟨?_, ?_, ?_⟩ <;>
          simp [Tail.update, hat.1, hp.1, hp.2]
      · exact ihr.1 u hu
    · simpa [tail_follow] using ihr.2

/-- The check block can only keep the head or reset it, and keep the tail or
clear it. -/
theorem frame_checks_head_tail (rows cols : Int) (seeds : List (Nat × Nat))
    (s s' : GameState) (hrun : frame_checks rows cols seeds s = some s') :
    (s'.head = s.head ∨ s'.head = s.head.reset 150 150) ∧
    (s'.tail = s.tail ∨ s'.tail = []) := by
  by_cases hb : s.map.is_tile_blocked
      (s.map.get_tile_coord s.head.x s.head.y).1
      (s.map.get_tile_coord s.head.x s.head.y).2 = true
  · rw [frame_checks_blocked rows cols seeds s hb] at hrun
    obtain rfl := Option.some.inj hrun
    exact ⟨Or.inr rfl, Or.inr rfl⟩
  · have hshape := self_collision_loop_shape
      (s.map.get_tile_coord s.head.x s.head.y).1
      (s.map.get_tile_coord s.head.x s.head.y).2 s.head s.tail s.tail
    unfold frame_checks at hrun
    simp only [hb, if_false, ite_false, Bool.false_eq_true] at hrun
    by_cases ha : s.map.is_tile_active
        (s.map.get_tile_coord s.head.x s.head.y).1
        (s.map.get_tile_coord s.head.x s.head.y).2 = true
    · simp only [ha, if_true, ite_true] at hrun
      cases hnt : new_random_tile rows cols s.head s.tail
          (s.map.deactivate_tile
            (s.map.get_tile_coord s.head.x s.head.y).1
            (s.map.get_tile_coord s.head.x s.head.y).2) seeds with
      | none =>
        rw [hnt] at hrun
        simp at hrun
      | some nt =>
        rw [hnt] at hrun
        obtain rfl := Option.some.inj hrun
        rcases hshape with he | he <;> rw [he] <;> simp
    · simp only [ha, if_false, ite_false, Bool.false_eq_true] at hrun
      obtain rfl := Option.some.inj hrun
      rcases hshape with he | he <;> rw [he] <;> simp

/-- The check block preserves the loop invariant. -/
theorem frame_checks_inv (rows cols : Int) (seeds : List (Nat × Nat))
    (s s' : GameState) (hrun : frame_checks rows cols seeds s = some s')
    (hinv : s.inv) : s'.inv := by
  obtain ⟨hh, ht⟩ := frame_checks_head_tail rows cols seeds s s' hrun
  obtain ⟨h1, h2, h3, h4, h5⟩ := hinv
  refine ⟨?_, ?_, ?_, ?_, ?_⟩
  · rcases hh with he | he <;> rw [he] <;>
      simp [Head.reset, Head.set_pos, Head.set_direction, h1]
  · rcases hh with he | he <;> rw [he] <;>
      simp [Head.reset, Head.set_pos, Head.set_direction, h2]
  · rcases hh with he | he
    · rw [he]; exact h3
    · rw [he]
      simp only [Head.reset, Head.set_pos, Head.set_direction]
      decide
  · rcases hh with he | he
    · rw [he]; exact h4
    · rw [he]
      simp only [Head.reset, Head.set_pos, Head.set_direction]
      decide
  · rcases ht with he | he <;> rw [he]
    · exact h5
    · simp

/-- The movement block preserves the loop invariant. -/
theorem movement_tick_inv (s : GameState) (hinv : s.inv) :
    (movement_tick s).inv := by
  obtain ⟨h1, h2, h3, h4, h5⟩ := hinv
  have hup := head_update_inv s.head h2 h3 h4
  have htf := tail_follow_inv (s.head.x, s.head.y) s.tail ⟨h3, h4⟩ h5
  unfold movement_tick
  by_cases hseg : s.add_segment
  · refine ⟨by simp [hseg, hup.1, h1], by simp [hseg, hup.2.1, h2],
      by simpa [hseg] using hup.2.2.1, by simpa [hseg] using hup.2.2.2, ?_⟩
    intro t ht
    simp only [hseg, if_true, ite_true] at ht
    rcases List.mem_append.mp ht with hmem | hmem
    · exact htf.1 t hmem
    · rcases List.mem_singleton.mp hmem with rfl
      exact ⟨rfl, htf.2.1, htf.2.2⟩
  · refine ⟨by simp [hseg, hup.1, h1], by simp [hseg, hup.2.1, h2],
      by simpa [hseg] using hup.2.2.1, by simpa [hseg] using hup.2.2.2, ?_⟩
    intro t ht
    simp only [hseg, if_false, ite_false, Bool.false_eq_true] at ht
    exact htf.1 t ht

/-- Every state reachable by the loop satisfies the invariant: all parts
active, head scale the cell size, all positions grid-aligned. -/
theorem reaches_inv (m : Map) (s : GameState) (h : Reaches m s) : s.inv := by
  induction h with
  | init =>
    refine ⟨rfl, rfl, ⟨6, by norm_num [init_state, Head.new, BLOCK_SIZE]⟩,
      ⟨6, by norm_num [init_state, Head.new, BLOCK_SIZE]⟩, ?_⟩
    intro t ht
    simp [init_state] at ht
  | frame rows cols km tick seeds s s' hr hstep ih =>
    simp only [frame] at hstep
    have hif := head_inputs_fields s.head km
    have hin : ({ s with head := s.head.inputs km } : GameState).inv := by
      obtain ⟨h1, h2, h3, h4, h5⟩ := ih
      exact ⟨by simp [hif.2.2.2, h1], by simp [hif.2.2.1, h2],
        by simpa [hif.1] using h3, by simpa [hif.2.1] using h4, h5⟩
    cases hfc : frame_checks rows cols seeds
        { s with head := s.head.inputs km } with
    | none =>
      rw [hfc] at hstep
      simp at hstep
    | some s1 =>
      rw [hfc] at hstep
      have h1inv := frame_checks_inv rows cols seeds _ s1 hfc hin
      obtain rfl := Option.some.inj hstep
      by_cases htick : tick = true
      · simpa [htick] using movement_tick_inv s1 h1inv
      · simpa [htick] using h1inv

/-! ## C9: grid alignment of all positions -/

/-- C9.  From the spawn state, after every frame of the loop the head's
position and every segment's position are exact integer multiples of the
cell size `BLOCK_SIZE = 25`: alignment holds at spawn and is preserved by
head advancement, the follow-the-leader pass, growth and reset. -/
theorem claim_C9_grid_alignment (m : Map) (s : GameState)
    (h : Reaches m s) :
    (BLOCK_SIZE ∣ s.head.x ∧ BLOCK_SIZE ∣ s.head.y) ∧
    ∀ t ∈ s.tail, BLOCK_SIZE ∣ t.x ∧ BLOCK_SIZE ∣ t.y := by
  obtain ⟨_, _, h3, h4, h5⟩ := reaches_inv m s h
  exact ⟨⟨h3, h4⟩, fun t ht => ⟨(h5 t ht).2.1, (h5 t ht).2.2⟩⟩

/-- C9 witness: the spawn state itself is reachable and aligned. -/
theorem claim_C9_witness :
    (BLOCK_SIZE ∣ (init_state (Map.mk [] 32 24)).head.x ∧
      BLOCK_SIZE ∣ (init_state (Map.mk [] 32 24)).head.y) ∧
    ∀ t ∈ (init_state (Map.mk [] 32 24)).tail,
      BLOCK_SIZE ∣ t.x ∧ BLOCK_SIZE ∣ t.y :=
  claim_C9_grid_alignment (Map.mk [] 32 24) (init_state (Map.mk [] 32 24))
    Reaches.init

/-! ## C10: the activity flags are always raised -/

/-- C10.  Both constructors raise `is_active`, and no reachable state of the
loop ever lowers it on the head or on any segment, so the inactive early
returns guarding `inputs`, `update` and the segment updates never fire on a
reachable state and every call performs its full effect. -/
theorem claim_C10_always_active :
    (∀ (x y scale : Int) (d : Direction),
      (Head.new x y scale d).is_active = true) ∧
    (∀ x y scale : Int, (Tail.new x y scale).is_active = true) ∧
    (∀ (m : Map) (s : GameState), Reaches m s → s.allActive) := by
  refine ⟨fun x y scale d => rfl, fun x y scale => rfl, fun m s h => ?_⟩
  obtain ⟨h1, _, _, _, h5⟩ := reaches_inv m s h
  exact ⟨h1, fun t ht => (h5 t ht).1⟩

/-- C10 witness: the spawn state is reachable and fully active. -/
theorem claim_C10_witness :
    (init_state (Map.mk [] 32 24)).allActive :=
  claim_C10_always_active.2.2 (Map.mk [] 32 24)
    (init_state (Map.mk [] 32 24)) Reaches.init
